import Mathlib

/-!
Verification of the `Authentication-Results` processing core of the
gaemail repository (`src/main.py`).  Python strings are modelled as
`List Char`; Python's dynamically typed values, where relevant to the
claims, are modelled by the `PyVal` inductive.  Each definition mirrors
one Python function (or one of the CPython library helpers it calls),
as noted in its doc comment.
-/

namespace Gaemail

set_option maxRecDepth 200000

/-- Python `str.isspace` for a single character: the Unicode whitespace
set used by CPython. -/
def pyIsSpace (c : Char) : Bool :=
  decide (c.val ∈ ([9, 10, 11, 12, 13, 28, 29, 30, 31, 32, 0x85, 0xA0, 0x1680,
    0x2000, 0x2001, 0x2002, 0x2003, 0x2004, 0x2005, 0x2006, 0x2007, 0x2008,
    0x2009, 0x200A, 0x2028, 0x2029, 0x202F, 0x205F, 0x3000] : List UInt32))

/-- Python `str.lower` on one character, restricted to ASCII (all the
strings the program compares are ASCII). -/
def pyToLower (c : Char) : Char :=
  if c = 'A' then 'a' else if c = 'B' then 'b' else if c = 'C' then 'c'
  else if c = 'D' then 'd' else if c = 'E' then 'e' else if c = 'F' then 'f'
  else if c = 'G' then 'g' else if c = 'H' then 'h' else if c = 'I' then 'i'
  else if c = 'J' then 'j' else if c = 'K' then 'k' else if c = 'L' then 'l'
  else if c = 'M' then 'm' else if c = 'N' then 'n' else if c = 'O' then 'o'
  else if c = 'P' then 'p' else if c = 'Q' then 'q' else if c = 'R' then 'r'
  else if c = 'S' then 's' else if c = 'T' then 't' else if c = 'U' then 'u'
  else if c = 'V' then 'v' else if c = 'W' then 'w' else if c = 'X' then 'x'
  else if c = 'Y' then 'y' else if c = 'Z' then 'z' else c

/-- Python `str.upper` on one character, restricted to ASCII. -/
def pyToUpper (c : Char) : Char :=
  if c = 'a' then 'A' else if c = 'b' then 'B' else if c = 'c' then 'C'
  else if c = 'd' then 'D' else if c = 'e' then 'E' else if c = 'f' then 'F'
  else if c = 'g' then 'G' else if c = 'h' then 'H' else if c = 'i' then 'I'
  else if c = 'j' then 'J' else if c = 'k' then 'K' else if c = 'l' then 'L'
  else if c = 'm' then 'M' else if c = 'n' then 'N' else if c = 'o' then 'O'
  else if c = 'p' then 'P' else if c = 'q' then 'Q' else if c = 'r' then 'R'
  else if c = 's' then 'S' else if c = 't' then 'T' else if c = 'u' then 'U'
  else if c = 'v' then 'V' else if c = 'w' then 'W' else if c = 'x' then 'X'
  else if c = 'y' then 'Y' else if c = 'z' then 'Z' else c

/-- Python `str.lower`. -/
def pyLower (s : List Char) : List Char := s.map pyToLower

/-- Python `str.upper`. -/
def pyUpper (s : List Char) : List Char := s.map pyToUpper

/-- Python `str.strip()`: remove leading and trailing whitespace. -/
def pyStrip (s : List Char) : List Char :=
  ((s.dropWhile pyIsSpace).reverse.dropWhile pyIsSpace).reverse

/-- The first loop of `remove_comments` (main.py lines 73-83): advance
past comments and whitespace, tracking the paren nesting counter, and
return the remaining suffix of the input (the slice from `start_index`). -/
def skipComments : List Char → Int → List Char
  | [], _ => []
  | c :: rest, nesting =>
    if c = '(' then skipComments rest (nesting + 1)
    else if c = ')' then skipComments rest (nesting - 1)
    else if pyIsSpace c = false ∧ nesting ≤ 0 then c :: rest
    else skipComments rest nesting

/-- The second loop of `remove_comments` (main.py lines 86-89): take
characters up to the next whitespace or `(`. -/
def takeToken (s : List Char) : List Char :=
  s.takeWhile (fun c => !pyIsSpace c && c != '(')

/-- `remove_comments` (main.py lines 56-92) on its string argument:
skip leading comments/whitespace, then take the token up to the next
whitespace or `(`.  (The `length <= 0` early return yields the same
empty result.) -/
def remove_comments (content : List Char) : List Char :=
  takeToken (skipComments content 0)

/-- Paren balance of a string: occurrences of `(` minus occurrences of
`)`, as an integer. -/
def parenBalance (s : List Char) : Int :=
  (s.count '(' : Int) - (s.count ')' : Int)

/-- Nesting contribution of one character to the `remove_comments` scan. -/
def charBal (c : Char) : Int :=
  if c = '(' then 1 else if c = ')' then -1 else 0

/-- Index at which the first `remove_comments` loop stops, starting from
nesting value `n` (helper used to characterise `skipComments`). -/
def stopIdx : List Char → Int → Nat
  | [], _ => 0
  | c :: rest, n =>
    if c = '(' then stopIdx rest (n + 1) + 1
    else if c = ')' then stopIdx rest (n - 1) + 1
    else if pyIsSpace c = false ∧ n ≤ 0 then 0
    else stopIdx rest n + 1

/-- Modelled from the spec and claim C2 (amended): position `i` of `s`
holds a non-whitespace, non-parenthesis character and the paren nesting
of the preceding prefix, offset by `n`, is at most zero. -/
def contentAtN (s : List Char) (n : Int) (i : Nat) : Bool :=
  match s.drop i with
  | [] => false
  | c :: _ =>
    !pyIsSpace c && c != '(' && c != ')' && decide (n + parenBalance (s.take i) ≤ 0)

/-- Modelled from the spec: claim C2's literal wording for the start of
the returned substring: position `i` holds a non-whitespace character
and the paren nesting of the preceding prefix is at most zero (no
exclusion of parenthesis characters). -/
def claimContentAt (s : List Char) (i : Nat) : Bool :=
  match s.drop i with
  | [] => false
  | c :: _ => !pyIsSpace c && decide (parenBalance (s.take i) ≤ 0)

/-- Modelled from the spec: a string consisting solely of balanced
parenthesized comments and whitespace, scanned at nesting depth `k`. -/
def commentsOnly : List Char → Nat → Bool
  | [], k => k == 0
  | c :: rest, k =>
    if c = '(' then commentsOnly rest (k + 1)
    else if c = ')' then decide (0 < k) && commentsOnly rest (k - 1)
    else (decide (0 < k) || pyIsSpace c) && commentsOnly rest k

/-- Python `str.count` for the two-character pattern `a b`:
non-overlapping occurrences, scanning left to right (used for the
`\"` count in `cgi._parseparam`). -/
def pyCount2 (a b : Char) : List Char → Nat
  | x :: y :: rest =>
    if x = a ∧ y = b then 1 + pyCount2 a b rest else pyCount2 a b (y :: rest)
  | _ => 0

/-- Indices of all `;` characters of a string, in increasing order. -/
def semiPositions : List Char → List Nat
  | [] => []
  | c :: rest =>
    if c = ';' then 0 :: (semiPositions rest).map (· + 1)
    else (semiPositions rest).map (· + 1)

/-- The `end` computation of `cgi._parseparam`: walk the successive `;`
positions until one is at index 0 or is preceded by an even number of
unescaped double quotes; if none qualifies the result is the length of
the string. -/
def firstGoodSemi (s : List Char) : List Nat → Nat
  | [] => s.length
  | p :: rest =>
    if p = 0 ∨ (((s.take p).count '"' : Int) - (pyCount2 '\\' '"' (s.take p) : Int)) % 2 = 0
    then p else firstGoodSemi s rest

/-- `end` of one `cgi._parseparam` iteration on `s` (after the leading
`;` has been removed). -/
def findSemiEnd (s : List Char) : Nat := firstGoodSemi s (semiPositions s)

/-- `cgi._parseparam`: repeatedly strip a leading `;`, cut at the next
unquoted `;`, and yield the stripped chunk.  The `fuel` argument only
drives structural termination: every iteration consumes at least the
leading `;`, so any fuel at least the length of the string is enough. -/
def parseparamF : Nat → List Char → List (List Char)
  | _, [] => []
  | 0, _ :: _ => []
  | fuel + 1, c :: rest =>
    if c = ';' then
      pyStrip (rest.take (findSemiEnd rest)) :: parseparamF fuel (rest.drop (findSemiEnd rest))
    else []

/-- `cgi._parseparam` on a whole string (adequate fuel supplied). -/
def parseparam (s : List Char) : List (List Char) := parseparamF s.length s

/-- Python `str.find` for a single character: index of the first
occurrence, if any. -/
def pyFindChar (c : Char) : List Char → Option Nat
  | [] => none
  | x :: rest => if x = c then some 0 else (pyFindChar c rest).map (· + 1)

/-- Python `str.replace` for a two-character pattern replaced by a
single character (non-overlapping, left to right). -/
def pyReplace2 (a b r : Char) : List Char → List Char
  | x :: y :: rest =>
    if x = a ∧ y = b then r :: pyReplace2 a b r rest
    else x :: pyReplace2 a b r (y :: rest)
  | l => l

/-- The value unquoting step of `cgi.parse_header`: if the value is at
least two characters long and starts and ends with `"`, drop the quotes
and unescape `\\` and `\"`. -/
def unquoteValue (v : List Char) : List Char :=
  if 2 ≤ v.length ∧ v.headD ' ' = '"' ∧ v.getLastD ' ' = '"' then
    pyReplace2 '\\' '"' '"' (pyReplace2 '\\' '\\' '\\' ((v.drop 1).take (v.length - 2)))
  else v

/-- Python `dict` assignment on an insertion-ordered association list:
an existing key keeps its position and gets the new value, a new key is
appended. -/
def dictInsert (k v : List Char) : List (List Char × List Char) → List (List Char × List Char)
  | [] => [(k, v)]
  | (k', v') :: rest =>
    if k' = k then (k, v) :: rest else (k', v') :: dictInsert k v rest

/-- The `pdict` loop of `cgi.parse_header`: for each chunk containing a
`=`, record `lower(strip(key))` mapped to the unquoted stripped value. -/
def buildDict : List (List Char) → List (List Char × List Char) → List (List Char × List Char)
  | [], d => d
  | p :: rest, d =>
    match pyFindChar '=' p with
    | some i =>
        buildDict rest
          (dictInsert (pyLower (pyStrip (p.take i)))
            (unquoteValue (pyStrip (p.drop (i + 1)))) d)
    | none => buildDict rest d

/-- `cgi.parse_header`: leading chunk (the authserv-id part) plus the
insertion-ordered mapping of the subsequent `key=value` chunks. -/
def parse_header (line : List Char) : List Char × List (List Char × List Char) :=
  match parseparam (';' :: line) with
  | [] => ([], [])
  | key :: parts => (key, buildDict parts [])

/-- A Python value, as far as the dynamic type checks of `main.py`
distinguish them: a string, or one of the non-string shapes that the
tests feed in (`None`, integers, lists). -/
inductive PyVal where
  | str : List Char → PyVal
  | int : Int → PyVal
  | none : PyVal
  | list : List PyVal → PyVal

/-- `isinstance(v, str)`. -/
def PyVal.isStr : PyVal → Bool
  | .str _ => true
  | _ => false

/-- `remove_comments` including its `isinstance` check (main.py lines
66-67): a non-string argument raises `TypeError`. -/
def remove_comments_py : PyVal → Except String (List Char)
  | .str s => .ok (remove_comments s)
  | _ => .error "content must be a string."

/-- The `accepted_set` comprehension of `verify_headers` (main.py lines
125-127): lowercase every non-empty string element, dropping the rest. -/
def acceptedSetOf (accepted : List PyVal) : List (List Char) :=
  accepted.filterMap fun v =>
    match v with
    | .str s => if 0 < s.length then some (pyLower s) else none
    | _ => none

/-- The comment-stripped, lowercased authserv-id of one raw header value
(main.py line 140). -/
def cleanAid (hdr : List Char) : List Char :=
  pyLower (remove_comments (parse_header hdr).1)

/-- The inner test of the `result_info` loop (main.py lines 147-151) on
one `key=value` pair: the cleaned key equals the target method and the
cleaned value is in the accepted set. -/
def pairOk (m : List Char) (acc : List (List Char)) (kv : List Char × List Char) : Bool :=
  decide (pyLower (remove_comments kv.1) = m) &&
    decide (pyLower (remove_comments kv.2) ∈ acc)

/-- The per-header work of `verify_headers` (main.py lines 137-151):
the authserv-id suffix test guards a search through the parsed pairs. -/
def headerVerifies (m : List Char) (acc : List (List Char)) (d : List Char)
    (hdr : List Char) : Bool :=
  List.isSuffixOf d (cleanAid hdr) && (parse_header hdr).2.any (pairOk m acc)

/-- `verify_headers` (main.py lines 94-152). -/
def verify_headers (headers : List PyVal) (method : PyVal)
    (accepted : List PyVal) (authserv_domain : PyVal) : Bool :=
  if headers.length ≤ 0 then false
  else match method with
  | .str m =>
    if m.length ≤ 0 then false
    else
      let acc := acceptedSetOf accepted
      if acc.length ≤ 0 then false
      else match authserv_domain with
      | .str d =>
        headers.any fun h =>
          match h with
          | .str s => headerVerifies (pyLower m) acc (pyLower d) s
          | _ => false
      | _ => false
  | _ => false

/-- `_DEFAULT_ACCEPT = ('pass',)`. -/
def defaultAccept : List PyVal := [PyVal.str ("pass".data)]

/-- The default `authserv_domain='mx.google.com'`. -/
def defaultDomain : PyVal := PyVal.str ("mx.google.com".data)

/-- One failure note appended by `deflect` (main.py lines 249-250). -/
def failNote (m : List Char) : List Char :=
  ("This email failed ".data) ++ pyUpper m ++ (" authentication.\n".data)

/-- One iteration of the `deflect` note-collecting loop (main.py lines
245-250) on the accumulated `text_body` list. -/
def deflectStep (headers : List PyVal) (tb : List (List Char)) (m : List Char) :
    List (List Char) :=
  if verify_headers headers (PyVal.str m) defaultAccept defaultDomain then tb
  else (if 0 < tb.length then tb ++ [['\n']] else tb) ++ [failNote m]

/-- The outbound text body computed by `deflect` (main.py lines 243-256)
from the `Authentication-Results` values and the first plain-text body
part of the inbound message. -/
def deflect_text_body (headers : List PyVal) (plain : List Char) : List Char :=
  let tb := deflectStep headers (deflectStep headers [] ("spf".data)) ("dkim".data)
  if tb.length ≤ 0 then plain
  else (tb ++ [['\n'], plain]).flatten

/-- Modelled from the spec (§4.4 step 3): one failure note per method
that does not verify, in the fixed order spf then dkim, without the
trailing newline (the spec words the notes as joined text). -/
def specFailNotes (headers : List PyVal) : List (List Char) :=
  (([("spf".data), ("dkim".data)]).filter
      (fun m => !(verify_headers headers (PyVal.str m) defaultAccept defaultDomain))).map
    (fun m => ("This email failed ".data) ++ pyUpper m ++ (" authentication.".data))

/-- Modelled from the spec (§4.4 step 4): the forwarded body — exactly
the first plain-text body part when no note was collected, otherwise the
notes joined with a blank line, followed by a blank line, followed by
the first plain-text body part. -/
def specBody (headers : List PyVal) (plain : List Char) : List Char :=
  if specFailNotes headers = [] then plain
  else List.intercalate ("\n\n".data) (specFailNotes headers) ++ ("\n\n".data) ++ plain

/-- Modelled from the spec: claim C1's per-header-value matching
condition — the comment-stripped, lowercased leading authserv-id token
ends with the lowercased domain, and some extracted `key=value` pair has
comment-stripped lowercased key equal to the lowercased method and
comment-stripped lowercased value in the lowercased accepted set. -/
def specHeaderMatch (m : List Char) (acc : List (List Char)) (d : List Char)
    (hdr : List Char) : Prop :=
  List.isSuffixOf d (cleanAid hdr) = true ∧
    ∃ kv ∈ (parse_header hdr).2,
      pyLower (remove_comments kv.1) = m ∧ pyLower (remove_comments kv.2) ∈ acc

instance (m : List Char) (acc : List (List Char)) (d : List Char) (hdr : List Char) :
    Decidable (specHeaderMatch m acc d hdr) := by
  unfold specHeaderMatch
  infer_instance

/-! ### Lemmas about `remove_comments` -/

theorem parenBalance_nil : parenBalance [] = 0 := rfl

theorem parenBalance_cons (c : Char) (l : List Char) :
    parenBalance (c :: l) = charBal c + parenBalance l := by
  by_cases h1 : c = '('
  · subst h1
    simp only [parenBalance, charBal, List.count_cons, if_pos rfl]
    simp only [beq_iff_eq, reduceIte, reduceCtorEq]
    push_cast
    omega
  · by_cases h2 : c = ')'
    · subst h2
      simp only [parenBalance, charBal, List.count_cons, beq_iff_eq]
      norm_num
      push_cast
      omega
    · simp only [parenBalance, charBal, List.count_cons, beq_iff_eq, h1, h2]
      norm_num

theorem contentAtN_cons_zero (c : Char) (rest : List Char) (n : Int) :
    contentAtN (c :: rest) n 0 =
      (!pyIsSpace c && c != '(' && c != ')' && decide (n ≤ 0)) := by
  simp [contentAtN, parenBalance]

theorem contentAtN_cons_succ (c : Char) (rest : List Char) (n : Int) (j : Nat) :
    contentAtN (c :: rest) n (j + 1) = contentAtN rest (n + charBal c) j := by
  cases h : rest.drop j with
  | nil => simp [contentAtN, h, List.take_succ_cons, parenBalance_cons]
  | cons x t =>
    simp [contentAtN, h, List.take_succ_cons, parenBalance_cons, add_assoc]

theorem stopIdx_le (s : List Char) : ∀ n, stopIdx s n ≤ s.length := by
  induction s with
  | nil => intro n; simp [stopIdx]
  | cons c rest ih =>
    intro n
    simp only [stopIdx, List.length_cons]
    by_cases h1 : c = '('
    · rw [if_pos h1]
      have := ih (n + 1); omega
    · by_cases h2 : c = ')'
      · rw [if_neg h1, if_pos h2]
        have := ih (n - 1); omega
      · by_cases h3 : pyIsSpace c = false ∧ n ≤ 0
        · rw [if_neg h1, if_neg h2, if_pos h3]; omega
        · rw [if_neg h1, if_neg h2, if_neg h3]
          have := ih n; omega

theorem skipComments_eq_drop (s : List Char) : ∀ n, skipComments s n = s.drop (stopIdx s n) := by
  induction s with
  | nil => intro n; rfl
  | cons c rest ih =>
    intro n
    by_cases h1 : c = '('
    · simp [skipComments, stopIdx, h1, ih (n + 1)]
    · by_cases h2 : c = ')'
      · simp [skipComments, stopIdx, h1, h2, ih (n - 1)]
      · by_cases h3 : pyIsSpace c = false ∧ n ≤ 0
        · simp [skipComments, stopIdx, h1, h2, h3]
        · simp [skipComments, stopIdx, h1, h2, h3, ih n]

theorem stopIdx_min (s : List Char) : ∀ n j, j < stopIdx s n → contentAtN s n j = false := by
  induction s with
  | nil => intro n j h; simp [stopIdx] at h
  | cons c rest ih =>
    intro n j hj
    simp only [stopIdx] at hj
    by_cases h1 : c = '('
    · rw [if_pos h1] at hj
      cases j with
      | zero => simp [contentAtN_cons_zero, h1]
      | succ j =>
        rw [contentAtN_cons_succ]
        have hb : charBal c = 1 := by simp [charBal, h1]
        rw [hb]
        exact ih (n + 1) j (by omega)
    · by_cases h2 : c = ')'
      · rw [if_neg h1, if_pos h2] at hj
        cases j with
        | zero => simp [contentAtN_cons_zero, h2]
        | succ j =>
          rw [contentAtN_cons_succ]
          have hb : charBal c = -1 := by simp [charBal, h1, h2]
          rw [hb]
          exact ih (n - 1) j (by omega)
      · by_cases h3 : pyIsSpace c = false ∧ n ≤ 0
        · rw [if_neg h1, if_neg h2, if_pos h3] at hj; omega
        · rw [if_neg h1, if_neg h2, if_neg h3] at hj
          cases j with
          | zero =>
            rw [contentAtN_cons_zero]
            by_cases hs : pyIsSpace c = true
            · simp [hs]
            · have hn : ¬ n ≤ 0 := fun hle => h3 ⟨by simpa using hs, hle⟩
              simp [hn]
          | succ j =>
            rw [contentAtN_cons_succ]
            have hb : charBal c = 0 := by simp [charBal, h1, h2]
            rw [hb, add_zero]
            exact ih n j (by omega)

theorem stopIdx_hit (s : List Char) :
    ∀ n, stopIdx s n < s.length → contentAtN s n (stopIdx s n) = true := by
  induction s with
  | nil => intro n h; simp [stopIdx] at h
  | cons c rest ih =>
    intro n h
    simp only [stopIdx, List.length_cons] at h ⊢
    by_cases h1 : c = '('
    · rw [if_pos h1] at h ⊢
      rw [contentAtN_cons_succ]
      have hb : charBal c = 1 := by simp [charBal, h1]
      rw [hb]
      exact ih (n + 1) (by omega)
    · by_cases h2 : c = ')'
      · rw [if_neg h1, if_pos h2] at h ⊢
        rw [contentAtN_cons_succ]
        have hb : charBal c = -1 := by simp [charBal, h1, h2]
        rw [hb]
        exact ih (n - 1) (by omega)
      · by_cases h3 : pyIsSpace c = false ∧ n ≤ 0
        · rw [if_neg h1, if_neg h2, if_pos h3]
          rw [contentAtN_cons_zero]
          simp [h3.1, h1, h2, h3.2]
        · rw [if_neg h1, if_neg h2, if_neg h3] at h ⊢
          rw [contentAtN_cons_succ]
          have hb : charBal c = 0 := by simp [charBal, h1, h2]
          rw [hb, add_zero]
          exact ih n (by omega)

theorem remove_comments_eq_drop (s : List Char) :
    remove_comments s =
      (s.drop (stopIdx s 0)).takeWhile (fun c => !pyIsSpace c && c != '(') := by
  rw [remove_comments, takeToken, skipComments_eq_drop]

theorem commentsOnly_skip (s : List Char) :
    ∀ k : Nat, commentsOnly s k = true → skipComments s (k : Int) = [] := by
  induction s with
  | nil => intro k _; rfl
  | cons c rest ih =>
    intro k h
    by_cases h1 : c = '('
    · rw [commentsOnly, if_pos h1] at h
      rw [skipComments, if_pos h1]
      have : ((k : Int) + 1) = ((k + 1 : Nat) : Int) := by push_cast; ring
      rw [this]
      exact ih (k + 1) h
    · by_cases h2 : c = ')'
      · rw [commentsOnly, if_neg h1, if_pos h2] at h
        simp only [Bool.and_eq_true, decide_eq_true_eq] at h
        obtain ⟨hk, h⟩ := h
        rw [skipComments, if_neg h1, if_pos h2]
        have : ((k : Int) - 1) = ((k - 1 : Nat) : Int) := by omega
        rw [this]
        exact ih (k - 1) h
      · rw [commentsOnly, if_neg h1, if_neg h2] at h
        simp only [Bool.and_eq_true, Bool.or_eq_true, decide_eq_true_eq] at h
        obtain ⟨hk, h⟩ := h
        have hcond : ¬ (pyIsSpace c = false ∧ (k : Int) ≤ 0) := by
          rcases hk with hk | hsp
          · rintro ⟨_, hle⟩; omega
          · rintro ⟨hf, _⟩; rw [hsp] at hf; exact Bool.true_eq_false.mp hf
        rw [skipComments, if_neg h1, if_neg h2, if_neg hcond]
        exact ih k h

theorem remove_comments_clean (s : List Char)
    (h : ∀ c ∈ s, pyIsSpace c = false ∧ c ≠ '(' ∧ c ≠ ')') : remove_comments s = s := by
  cases s with
  | nil => rfl
  | cons c rest =>
    obtain ⟨hs, h1, h2⟩ := h c (by simp)
    rw [remove_comments]
    have hskip : skipComments (c :: rest) 0 = c :: rest := by
      rw [skipComments, if_neg h1, if_neg h2, if_pos ⟨hs, le_refl 0⟩]
    rw [hskip, takeToken, List.takeWhile_eq_self_iff.mpr]
    intro x hx
    obtain ⟨xs, x1, _⟩ := h x hx
    simp [xs, x1]

theorem skipComments_shape (s : List Char) :
    ∀ n, skipComments s n = [] ∨
      ∃ c t, skipComments s n = c :: t ∧ pyIsSpace c = false ∧ c ≠ '(' ∧ c ≠ ')' := by
  induction s with
  | nil => intro n; exact Or.inl rfl
  | cons c rest ih =>
    intro n
    by_cases h1 : c = '('
    · rw [skipComments, if_pos h1]; exact ih (n + 1)
    · by_cases h2 : c = ')'
      · rw [skipComments, if_neg h1, if_pos h2]; exact ih (n - 1)
      · by_cases h3 : pyIsSpace c = false ∧ n ≤ 0
        · exact Or.inr ⟨c, rest, by rw [skipComments, if_neg h1, if_neg h2, if_pos h3], h3.1, h1, h2⟩
        · rw [skipComments, if_neg h1, if_neg h2, if_neg h3]; exact ih n

theorem remove_comments_idem (s : List Char) :
    remove_comments (remove_comments s) = remove_comments s := by
  rcases h : remove_comments s with _ | ⟨c, t⟩
  · rfl
  · have hmem : ∀ x ∈ remove_comments s, (!pyIsSpace x && x != '(') = true := by
      intro x hx
      rw [remove_comments, takeToken] at hx
      simpa using List.mem_takeWhile_imp hx
    have hc : pyIsSpace c = false ∧ c ≠ '(' ∧ c ≠ ')' := by
      rcases skipComments_shape s 0 with hnil | ⟨c', t', heq, hsp, h1, h2⟩
      · rw [remove_comments, takeToken, hnil] at h; simp at h
      · rw [remove_comments, takeToken, heq, List.takeWhile_cons] at h
        by_cases hp : (!pyIsSpace c' && c' != '(') = true
        · rw [if_pos hp] at h
          injection h with hc' _
          subst hc'
          exact ⟨hsp, h1, h2⟩
        · rw [if_neg hp] at h; simp at h
    rw [remove_comments]
    have hskip : skipComments (c :: t) 0 = c :: t := by
      rw [skipComments, if_neg hc.2.1, if_neg hc.2.2, if_pos ⟨hc.1, le_refl 0⟩]
    rw [hskip, takeToken, List.takeWhile_eq_self_iff.mpr]
    intro x hx
    exact hmem x (h ▸ hx)

/-! ### Claim theorems: C2, C9, C10 -/

/-- Claim C2, counterexample.  The claim says `remove_comments` returns
the substring starting at the first non-whitespace character found at
parenthesis-nesting level at most zero and ending at the next whitespace
or `(`.  On the input `")a"`, the character `)` at index 0 is
non-whitespace and sits at nesting level 0, so the claim predicts the
result `")a"`, but the code skips the `)` and returns `"a"`. -/
theorem claim_C2_counterexample :
    claimContentAt ([')', 'a']) 0 = true ∧
    remove_comments ([')', 'a']) = ['a'] ∧
    remove_comments ([')', 'a']) ≠
      (([')', 'a']).drop 0).takeWhile (fun c => !pyIsSpace c && c != '(') := by
  refine ⟨by decide, by decide, by decide⟩

/-- Claim C2, amended: for every string input, `remove_comments` returns
the substring starting at the first non-whitespace, NON-PARENTHESIS
character found at parenthesis-nesting level at most zero and ending at
the next whitespace or `(` character; consequently a string containing no
`(`, `)` or whitespace characters is returned unchanged, and a string
consisting solely of balanced parenthesized comments and whitespace (or
the empty string) yields the empty string. -/
theorem claim_C2_amended (s : List Char) :
    (∃ i, i ≤ s.length ∧
      remove_comments s = (s.drop i).takeWhile (fun c => !pyIsSpace c && c != '(') ∧
      (∀ j, j < i → contentAtN s 0 j = false) ∧
      (i < s.length → contentAtN s 0 i = true)) ∧
    ((∀ c ∈ s, pyIsSpace c = false ∧ c ≠ '(' ∧ c ≠ ')') → remove_comments s = s) ∧
    (commentsOnly s 0 = true → remove_comments s = []) := by
  refine ⟨⟨stopIdx s 0, stopIdx_le s 0, remove_comments_eq_drop s,
      stopIdx_min s 0, stopIdx_hit s 0⟩, remove_comments_clean s, ?_⟩
  intro h
  have h0 : skipComments s ((0 : Nat) : Int) = [] := commentsOnly_skip s 0 h
  rw [remove_comments]
  norm_num at h0
  rw [h0]
  rfl

/-- Claim C2, witness: the amended characterization applied to concrete
inputs: a clean token is returned unchanged and an all-comment string
yields the empty string. -/
theorem claim_C2_amended_witness :
    remove_comments ("foo.example.net".data) = ("foo.example.net".data) ∧
    remove_comments (" (all comments) ".data) = [] :=
  ⟨(claim_C2_amended ("foo.example.net".data)).2.1 (by decide),
   (claim_C2_amended (" (all comments) ".data)).2.2 (by decide)⟩

/-- Claim C9: `remove_comments` is idempotent — stripping twice equals
stripping once, for every string. -/
theorem claim_C9_idempotent (s : List Char) :
    remove_comments (remove_comments s) = remove_comments s :=
  remove_comments_idem s

/-- Claim C10: for every string input the result of `remove_comments` is
a contiguous substring of the input containing no whitespace character
and no `(` character; it may contain `)` (shown on the concrete input
`"a)b"`, whose result keeps the `)`). -/
theorem claim_C10_invariant (s : List Char) :
    (∃ pre post, pre ++ remove_comments s ++ post = s) ∧
    (∀ c ∈ remove_comments s, pyIsSpace c = false ∧ c ≠ '(') ∧
    ')' ∈ remove_comments ("a)b".data) := by
  refine ⟨?_, ?_, by decide⟩
  · have h1 : remove_comments s <+: skipComments s 0 := by
      rw [remove_comments, takeToken]
      exact List.takeWhile_prefix _
    have h2 : skipComments s 0 <:+ s := by
      rw [skipComments_eq_drop]; exact List.drop_suffix _ _
    obtain ⟨r, hr⟩ := h1
    obtain ⟨p, hp⟩ := h2
    exact ⟨p, r, by rw [List.append_assoc, hr, hp]⟩
  · intro c hc
    rw [remove_comments, takeToken] at hc
    have := List.mem_takeWhile_imp hc
    simp only [Bool.and_eq_true, Bool.not_eq_true', bne_iff_ne] at this
    exact this

/-! ### Claim theorems: C5, C6, C7, C8 -/

/-- Claim C5, counterexample.  On the comment-heavy header of scenario 4,
`verify_headers` with method `"policy"` and accepted `{"1362471462"}`
returns `false`, not `true` as the claim states: the header contains a
single `;`, so `cgi.parse_header` yields one single `key=value` pair
whose comment-stripped key is `"dkim"` — there is no `"policy"` key. -/
theorem claim_C5_counterexample :
    verify_headers
      [PyVal.str ("mx.google.com (foobar) 1 (baz); dkim (Because I like it) / 1 (One yay) = (wait for it) pass policy (A dot) . expired (surprised) = (as) 1362471462".data)]
      (PyVal.str ("policy".data)) [PyVal.str ("1362471462".data)] defaultDomain = false := by
  decide

/-- Claim C5, amended: calling verify on the comment-heavy header value
returns `true` for method `"dkim"` with accepted `{"pass"}`, but `false`
for method `"policy"` with accepted `{"1362471462"}` (the `policy ... =
1362471462` text is part of the single dkim pair's value, not a separate
pair, because the header has no further `;`). -/
theorem claim_C5_amended :
    verify_headers
      [PyVal.str ("mx.google.com (foobar) 1 (baz); dkim (Because I like it) / 1 (One yay) = (wait for it) pass policy (A dot) . expired (surprised) = (as) 1362471462".data)]
      (PyVal.str ("dkim".data)) defaultAccept defaultDomain = true ∧
    verify_headers
      [PyVal.str ("mx.google.com (foobar) 1 (baz); dkim (Because I like it) / 1 (One yay) = (wait for it) pass policy (A dot) . expired (surprised) = (as) 1362471462".data)]
      (PyVal.str ("policy".data)) [PyVal.str ("1362471462".data)] defaultDomain = false :=
  ⟨by decide, by decide⟩

/-- Claim C6: domain filtering is a case-insensitive suffix test on the
comment-stripped authserv-id: the empty domain suffix-matches every
cleaned authserv-id (including the empty one); upper-casing the domain
argument never changes the verification result; and the default domain
`"mx.google.com"` accepts headers whose authserv-id is `"mx.google.com"`
(in any letter case) as well as `"gmr-mx.google.com"`. -/
theorem claim_C6_domain_suffix :
    (∀ hdr : List Char, List.isSuffixOf ([] : List Char) (cleanAid hdr) = true) ∧
    (∀ headers m acc (d1 d2 : List Char), pyLower d1 = pyLower d2 →
      verify_headers headers m acc (PyVal.str d1) =
        verify_headers headers m acc (PyVal.str d2)) ∧
    verify_headers [PyVal.str ("MX.Google.Com; spf=pass x=y".data)]
      (PyVal.str ("spf".data)) defaultAccept defaultDomain = true ∧
    verify_headers [PyVal.str ("gmr-mx.google.com; spf=pass x=y".data)]
      (PyVal.str ("spf".data)) defaultAccept defaultDomain = true ∧
    verify_headers [PyVal.str ("mx.google.com; spf=pass x=y".data)]
      (PyVal.str ("spf".data)) defaultAccept defaultDomain = true := by
  refine ⟨?_, ?_, by decide, by decide, by decide⟩
  · intro hdr
    rw [List.isSuffixOf]
    simp [List.isPrefixOf]
  · intro headers m acc d1 d2 hd
    simp only [verify_headers, hd]

/-- Claim C6, witness: the case-insensitivity conjunct applied to the
concrete pair `"MX.GOOGLE.COM"` / `"mx.google.com"`. -/
theorem claim_C6_domain_suffix_witness :
    verify_headers [PyVal.str ("mx.google.com; spf=pass x=y".data)]
      (PyVal.str ("spf".data)) defaultAccept (PyVal.str ("MX.GOOGLE.COM".data)) =
    verify_headers [PyVal.str ("mx.google.com; spf=pass x=y".data)]
      (PyVal.str ("spf".data)) defaultAccept (PyVal.str ("mx.google.com".data)) :=
  claim_C6_domain_suffix.2.1 _ _ _ _ _ (by decide)

/-- Claim C7: `verify_headers` returns `false` (without raising) whenever
the header list is empty, the method is a non-string or the empty string,
the accepted iterable filters down to no non-empty strings, or the
authserv domain is not a string — for every value of the remaining
arguments. -/
theorem claim_C7_guards :
    (∀ m acc d, verify_headers [] m acc d = false) ∧
    (∀ h m acc d, m.isStr = false → verify_headers h m acc d = false) ∧
    (∀ h acc d, verify_headers h (PyVal.str []) acc d = false) ∧
    (∀ h m acc d, acceptedSetOf acc = [] → verify_headers h m acc d = false) ∧
    (∀ h m acc d, d.isStr = false → verify_headers h m acc d = false) := by
  refine ⟨fun m acc d => rfl, ?_, ?_, ?_, ?_⟩
  · intro h m acc d hm
    cases m <;> simp_all [verify_headers, PyVal.isStr]
  · intro h acc d
    rw [verify_headers]
    split
    · rfl
    · rfl
  · intro h m acc d hacc
    cases m <;> simp [verify_headers, hacc]
  · intro h m acc d hd
    cases d with
    | str s => simp [PyVal.isStr] at hd
    | int n => cases m <;> simp [verify_headers]
    | none => cases m <;> simp [verify_headers]
    | list l => cases m <;> simp [verify_headers]

/-- Claim C7, witness: each guard exercised at a concrete input:
empty header list, `None` method, empty-string method, accepted
iterable containing only a non-string and an empty string, and an
integer authserv domain. -/
theorem claim_C7_witness :
    verify_headers [] (PyVal.str ("spf".data)) defaultAccept defaultDomain = false ∧
    verify_headers [PyVal.str ("mx.google.com; spf=pass".data)] PyVal.none
      defaultAccept defaultDomain = false ∧
    verify_headers [PyVal.str ("mx.google.com; spf=pass".data)] (PyVal.str [])
      defaultAccept defaultDomain = false ∧
    verify_headers [PyVal.str ("mx.google.com; spf=pass".data)] (PyVal.str ("spf".data))
      [PyVal.int 3, PyVal.str []] defaultDomain = false ∧
    verify_headers [PyVal.str ("mx.google.com; spf=pass".data)] (PyVal.str ("spf".data))
      defaultAccept (PyVal.int 7) = false :=
  ⟨claim_C7_guards.1 _ _ _, claim_C7_guards.2.1 _ _ _ _ rfl, claim_C7_guards.2.2.1 _ _ _,
   claim_C7_guards.2.2.2.1 _ _ _ _ (by decide), claim_C7_guards.2.2.2.2 _ _ _ _ rfl⟩

/-- Claim C8: `remove_comments` signals a type error exactly when its
argument is not a string: every string argument returns normally with the
stripped token, and every non-string argument produces the `TypeError`. -/
theorem claim_C8_type_error :
    (∀ s, remove_comments_py (PyVal.str s) = Except.ok (remove_comments s)) ∧
    (∀ v, v.isStr = false →
      remove_comments_py v = Except.error "content must be a string.") := by
  refine ⟨fun s => rfl, ?_⟩
  intro v hv
  cases v with
  | str s => simp [PyVal.isStr] at hv
  | int n => rfl
  | none => rfl
  | list l => rfl

/-- Claim C8, witness: a concrete string input returns its token and a
concrete integer input signals the type error. -/
theorem claim_C8_witness :
    remove_comments_py (PyVal.str (" (c) tok".data)) = Except.ok ("tok".data) ∧
    remove_comments_py (PyVal.int 42) = Except.error "content must be a string." := by
  constructor
  · rw [claim_C8_type_error.1 (" (c) tok".data)]
    exact congrArg Except.ok (by decide)
  · exact claim_C8_type_error.2 (PyVal.int 42) rfl

/-! ### Claim theorem: C3 -/

/-- Claim C3: for every inbound message, the note-collecting loop of
`deflect` produces a failure note `"This email failed METHOD
authentication."` for each method in the fixed order spf, dkim whose
verification fails; the outbound body is exactly the first plain-text
body part when no note is collected, and otherwise the notes joined
with a blank line, followed by a blank line, followed by the first
plain-text body part; a message with no plain-text body failing both
checks yields exactly the scenario-5 string. -/
theorem claim_C3_forwarded_body :
    (∀ headers plain, deflect_text_body headers plain = specBody headers plain) ∧
    deflect_text_body [] [] =
      ("This email failed SPF authentication.\n\nThis email failed DKIM authentication.\n\n".data) := by
  constructor
  · intro headers plain
    rcases h1 : verify_headers headers (PyVal.str ("spf".data)) defaultAccept defaultDomain <;>
      rcases h2 : verify_headers headers (PyVal.str ("dkim".data)) defaultAccept defaultDomain <;>
        simp [deflect_text_body, deflectStep, specBody, specFailNotes, failNote, h1, h2,
          List.intercalate, List.intersperse, List.append_assoc]
  · decide

/-- Claim C10, witness: the invariant applied to the concrete input
`" (x) ab(c"`, whose result is `"ab"`: it is a substring, and its member
`'a'` is neither whitespace nor `(`. -/
theorem claim_C10_invariant_witness :
    (∃ pre post, pre ++ remove_comments (" (x) ab(c".data) ++ post = (" (x) ab(c".data)) ∧
    pyIsSpace 'a' = false ∧ 'a' ≠ '(' :=
  ⟨(claim_C10_invariant (" (x) ab(c".data)).1,
   (claim_C10_invariant (" (x) ab(c".data)).2.1 'a' (by decide)⟩

/-! ### Lemmas about `verify_headers` and claim C1 -/

theorem verify_eq_any (headers : List PyVal) (m : List Char) (accepted : List PyVal)
    (d : List Char) (hh : headers ≠ []) (hm : m ≠ []) (ha : acceptedSetOf accepted ≠ []) :
    verify_headers headers (PyVal.str m) accepted (PyVal.str d) =
      headers.any fun h =>
        match h with
        | PyVal.str s => headerVerifies (pyLower m) (acceptedSetOf accepted) (pyLower d) s
        | _ => false := by
  have g1 : ¬ headers.length ≤ 0 := by
    cases headers with
    | nil => exact absurd rfl hh
    | cons x t => simp
  have g2 : ¬ m.length ≤ 0 := by
    cases m with
    | nil => exact absurd rfl hm
    | cons x t => simp
  have g3 : ¬ (acceptedSetOf accepted).length ≤ 0 := by
    cases hacc : acceptedSetOf accepted with
    | nil => exact absurd hacc ha
    | cons x t => simp
  simp only [verify_headers, if_neg g1, if_neg g2, if_neg g3]

theorem headerVerifies_iff (m : List Char) (acc : List (List Char)) (d : List Char)
    (hdr : List Char) :
    headerVerifies m acc d hdr = true ↔ specHeaderMatch m acc d hdr := by
  simp [headerVerifies, specHeaderMatch, pairOk, List.any_eq_true]

/-- Claim C1: under the stated preconditions (non-empty string header
list, non-empty string method, accepted set non-empty after filtering,
string domain), `verify_headers` returns true iff some header value in
the list both has a comment-stripped lowercased authserv-id ending in
the lowercased domain and contains a pair whose cleaned key is the
lowercased method and whose cleaned value is in the lowercased accepted
set; in particular a single satisfying header value makes the whole call
true no matter what the other header values contain. -/
theorem claim_C1_or_semantics (headers accepted : List (List Char)) (m d : List Char)
    (hh : headers ≠ []) (hm : m ≠ [])
    (ha : acceptedSetOf (accepted.map PyVal.str) ≠ []) :
    (verify_headers (headers.map PyVal.str) (PyVal.str m) (accepted.map PyVal.str)
        (PyVal.str d) = true ↔
      ∃ hdr ∈ headers,
        specHeaderMatch (pyLower m) (acceptedSetOf (accepted.map PyVal.str)) (pyLower d) hdr) ∧
    (∀ hA hB,
      specHeaderMatch (pyLower m) (acceptedSetOf (accepted.map PyVal.str)) (pyLower d) hB →
      verify_headers ([hA, hB].map PyVal.str) (PyVal.str m) (accepted.map PyVal.str)
        (PyVal.str d) = true) := by
  have key : ∀ hs : List (List Char), hs ≠ [] →
      (verify_headers (hs.map PyVal.str) (PyVal.str m) (accepted.map PyVal.str)
          (PyVal.str d) = true ↔
        ∃ hdr ∈ hs,
          specHeaderMatch (pyLower m) (acceptedSetOf (accepted.map PyVal.str)) (pyLower d) hdr) := by
    intro hs hs0
    rw [verify_eq_any _ _ _ _ (by simpa using hs0) hm ha]
    rw [List.any_eq_true]
    constructor
    · rintro ⟨x, hx, hp⟩
      obtain ⟨hdr, hmem, rfl⟩ := List.mem_map.mp hx
      exact ⟨hdr, hmem, (headerVerifies_iff _ _ _ _).mp (by simpa using hp)⟩
    · rintro ⟨hdr, hmem, hp⟩
      exact ⟨PyVal.str hdr, List.mem_map_of_mem _ hmem,
        by simpa using (headerVerifies_iff _ _ _ _).mpr hp⟩
  refine ⟨key headers hh, ?_⟩
  intro hA hB hmatch
  exact (key [hA, hB] (by simp)).mpr ⟨hB, by simp, hmatch⟩

/-- Claim C1, witness: the OR semantics applied to a concrete two-header
list where the first header fails the domain test and the second matches
with an accepted result. -/
theorem claim_C1_or_semantics_witness :
    verify_headers ([("example.org; spf=pass a=b".data),
        ("mx.google.com; spf=pass a=b".data)].map PyVal.str)
      (PyVal.str ("spf".data)) ([("pass".data)].map PyVal.str)
      (PyVal.str ("mx.google.com".data)) = true :=
  (claim_C1_or_semantics [("example.org; spf=pass a=b".data),
      ("mx.google.com; spf=pass a=b".data)] [("pass".data)]
    ("spf".data) ("mx.google.com".data)
    (by decide) (by decide) (by decide)).1.mpr (by decide)

/-! ### Lemmas about `cgi.parse_header` -/

theorem semiPositions_append_no_semi (a : List Char) (l : List Char) (h : ';' ∉ a) :
    semiPositions (a ++ l) = (semiPositions l).map (· + a.length) := by
  induction a with
  | nil => simp
  | cons c a ih =>
    have hc : c ≠ ';' := by intro e; exact h (by simp [e])
    have ha : ';' ∉ a := fun e => h (by simp [e])
    rw [List.cons_append, semiPositions, if_neg hc, ih ha, List.map_map]
    simp only [List.length_cons]
    refine List.map_congr_left fun x _ => ?_
    simp only [Function.comp_apply]
    omega

theorem semiPositions_no_semi (a : List Char) (h : ';' ∉ a) : semiPositions a = [] := by
  induction a with
  | nil => rfl
  | cons c a ih =>
    have hc : c ≠ ';' := by intro e; exact h (by simp [e])
    have ha : ';' ∉ a := fun e => h (by simp [e])
    simp [semiPositions, if_neg hc, ih ha]

theorem pyCount2_eq_zero (a b : Char) : ∀ l : List Char, b ∉ l → pyCount2 a b l = 0
  | [], _ => rfl
  | [_], _ => rfl
  | x :: y :: rest, h => by
    have hy : ¬ (x = a ∧ y = b) := by
      rintro ⟨_, rfl⟩
      exact h (List.mem_cons_of_mem _ (List.mem_cons_self _ _))
    rw [pyCount2, if_neg hy]
    exact pyCount2_eq_zero a b (y :: rest) fun e => h (List.mem_cons_of_mem _ e)

theorem findSemiEnd_append (a rest : List Char) (h1 : ';' ∉ a) (h2 : '"' ∉ a) :
    findSemiEnd (a ++ ';' :: rest) = a.length := by
  rw [findSemiEnd, semiPositions_append_no_semi a (';' :: rest) h1, semiPositions,
    if_pos rfl]
  simp only [List.map_cons, Nat.zero_add]
  rw [firstGoodSemi, if_pos]
  right
  rw [List.take_left, List.count_eq_zero.mpr h2, pyCount2_eq_zero _ _ a h2]
  norm_num

theorem findSemiEnd_no_semi (a : List Char) (h : ';' ∉ a) : findSemiEnd a = a.length := by
  rw [findSemiEnd, semiPositions_no_semi a h, firstGoodSemi]

theorem parseparamF_nil : ∀ fuel, parseparamF fuel [] = [] := by
  intro fuel; cases fuel <;> rfl

theorem parseparamF_fuel : ∀ (fuel fuel' : Nat) (s : List Char), s.length ≤ fuel →
    s.length ≤ fuel' → parseparamF fuel s = parseparamF fuel' s := by
  intro fuel
  induction fuel with
  | zero =>
    intro fuel' s hs _
    have hnil : s = [] := by cases s <;> simp_all
    subst hnil
    cases fuel' <;> rfl
  | succ f ih =>
    intro fuel' s hs hs'
    cases s with
    | nil => cases fuel' <;> rfl
    | cons c rest =>
      cases fuel' with
      | zero => simp at hs'
      | succ f' =>
        simp only [parseparamF]
        by_cases hc : c = ';'
        · rw [if_pos hc, if_pos hc]
          congr 1
          have hd := List.length_drop (findSemiEnd rest) rest
          simp only [List.length_cons] at hs hs'
          exact ih f' _ (by omega) (by omega)
        · rw [if_neg hc, if_neg hc]

theorem parseparam_cons_append (a rest : List Char) (h1 : ';' ∉ a) (h2 : '"' ∉ a) :
    parseparam (';' :: (a ++ ';' :: rest)) = pyStrip a :: parseparam (';' :: rest) := by
  rw [parseparam, parseparam]
  simp only [List.length_cons]
  rw [parseparamF, if_pos rfl, findSemiEnd_append a rest h1 h2, List.take_left,
    List.drop_left]
  congr 1
  apply parseparamF_fuel
  · simp [List.length_append]
  · simp

theorem parseparam_cons_last (a : List Char) (h1 : ';' ∉ a) :
    parseparam (';' :: a) = [pyStrip a] := by
  rw [parseparam]
  simp only [List.length_cons]
  rw [parseparamF, if_pos rfl, findSemiEnd_no_semi a h1, List.take_length,
    List.drop_length, parseparamF_nil]

theorem dropWhile_nospace (l : List Char) (h : ∀ c ∈ l, pyIsSpace c = false) :
    l.dropWhile pyIsSpace = l := by
  cases l with
  | nil => rfl
  | cons c t =>
    have hc := h c (List.mem_cons_self c t)
    rw [List.dropWhile_cons, if_neg (by simp [hc])]

theorem pyStrip_nospace (l : List Char) (h : ∀ c ∈ l, pyIsSpace c = false) :
    pyStrip l = l := by
  rw [pyStrip, dropWhile_nospace l h,
    dropWhile_nospace _ (by intro c hc; exact h c (List.mem_reverse.mp hc)),
    List.reverse_reverse]

theorem pyStrip_cons_space (l : List Char) (h : ∀ c ∈ l, pyIsSpace c = false) :
    pyStrip (' ' :: l) = l := by
  rw [pyStrip, List.dropWhile_cons, if_pos (by decide), dropWhile_nospace l h,
    dropWhile_nospace _ (by intro c hc; exact h c (List.mem_reverse.mp hc)),
    List.reverse_reverse]

theorem unquoteValue_no_quote (v : List Char) (h : '"' ∉ v) : unquoteValue v = v := by
  rw [unquoteValue, if_neg]
  rintro ⟨hlen, hhead, _⟩
  cases v with
  | nil => simp at hlen
  | cons c t =>
    simp only [List.headD_cons] at hhead
    exact h (by simp [hhead])

theorem buildDict_spf_cons (r : List Char) (ps : List (List Char))
    (d : List (List Char × List Char))
    (hns : ∀ c ∈ r, pyIsSpace c = false) (hq : '"' ∉ r) :
    buildDict ((("spf=".data) ++ r) :: ps) d =
      buildDict ps (dictInsert ("spf".data) r d) := by
  rw [buildDict]
  have hf : pyFindChar '=' (("spf=".data) ++ r) = some 3 := rfl
  rw [hf]
  show buildDict ps
      (dictInsert (pyLower (pyStrip ((("spf=".data) ++ r).take 3)))
        (unquoteValue (pyStrip ((("spf=".data) ++ r).drop 4))) d) = _
  rw [show (("spf=".data) ++ r).take 3 = ("spf".data) from rfl,
    show (("spf=".data) ++ r).drop 4 = r from rfl,
    pyStrip_nospace r hns, unquoteValue_no_quote r hq,
    show pyLower (pyStrip ("spf".data)) = ("spf".data) from by decide]

theorem parse_header_two_spf (r1 r2 : List Char)
    (h1 : ';' ∉ r1) (h2 : '"' ∉ r1) (h3 : ∀ c ∈ r1, pyIsSpace c = false)
    (h4 : ';' ∉ r2) (h5 : '"' ∉ r2) (h6 : ∀ c ∈ r2, pyIsSpace c = false) :
    parse_header (("mx.google.com; spf=".data) ++ r1 ++ ("; spf=".data) ++ r2) =
      (("mx.google.com".data), [(("spf".data), r2)]) := by
  have hns1 : ∀ c ∈ ("spf=".data) ++ r1, pyIsSpace c = false := by
    intro c hc
    rcases List.mem_append.mp hc with hc | hc
    · exact (by decide : ∀ c ∈ ("spf=".data), pyIsSpace c = false) c hc
    · exact h3 c hc
  have hns2 : ∀ c ∈ ("spf=".data) ++ r2, pyIsSpace c = false := by
    intro c hc
    rcases List.mem_append.mp hc with hc | hc
    · exact (by decide : ∀ c ∈ ("spf=".data), pyIsSpace c = false) c hc
    · exact h6 c hc
  have hsemi1 : ';' ∉ (" spf=".data) ++ r1 := by
    intro hc
    rcases List.mem_append.mp hc with hc | hc
    · exact (by decide : ';' ∉ (" spf=".data)) hc
    · exact h1 hc
  have hsemi2 : ';' ∉ (" spf=".data) ++ r2 := by
    intro hc
    rcases List.mem_append.mp hc with hc | hc
    · exact (by decide : ';' ∉ (" spf=".data)) hc
    · exact h4 hc
  have hq1 : '"' ∉ (" spf=".data) ++ r1 := by
    intro hc
    rcases List.mem_append.mp hc with hc | hc
    · exact (by decide : '"' ∉ (" spf=".data)) hc
    · exact h2 hc
  have e1 : ("mx.google.com; spf=".data) ++ r1 ++ ("; spf=".data) ++ r2 =
      ("mx.google.com".data) ++
        ';' :: (((" spf=".data) ++ r1) ++ ';' :: ((" spf=".data) ++ r2)) := by
    simp [List.append_assoc]
  have hpp : parseparam
      (';' :: (("mx.google.com; spf=".data) ++ r1 ++ ("; spf=".data) ++ r2)) =
      [("mx.google.com".data), ("spf=".data) ++ r1, ("spf=".data) ++ r2] := by
    rw [e1, parseparam_cons_append _ _ (by decide) (by decide),
      parseparam_cons_append _ _ hsemi1 hq1, parseparam_cons_last _ hsemi2,
      show (" spf=".data) ++ r1 = ' ' :: (("spf=".data) ++ r1) from rfl,
      show (" spf=".data) ++ r2 = ' ' :: (("spf=".data) ++ r2) from rfl,
      pyStrip_cons_space _ hns1, pyStrip_cons_space _ hns2,
      show pyStrip ("mx.google.com".data) = ("mx.google.com".data) from by decide]
  rw [parse_header, hpp]
  show (("mx.google.com".data),
    buildDict [("spf=".data) ++ r1, ("spf=".data) ++ r2] []) = _
  rw [buildDict_spf_cons r1 _ _ h3 h2, buildDict_spf_cons r2 _ _ h6 h5]
  rfl

/-! ### Claim theorems: C4 -/

/-- Claim C4, counterexample.  In the header value
`"mx.google.com; spf=pass; spf=fail"` the method `spf` occurs as a key
twice and the first occurrence's result `pass` is in the accepted set
`{"pass"}`, yet `verify_headers` returns `false`: `cgi.parse_header`
collects the pairs into a dict, so the second identical key overwrites
the first and only `fail` survives (accepting `{"fail"}` instead returns
`true`, and the parsed mapping retains only the last value). -/
theorem claim_C4_counterexample :
    verify_headers [PyVal.str ("mx.google.com; spf=pass; spf=fail".data)]
      (PyVal.str ("spf".data)) defaultAccept defaultDomain = false ∧
    verify_headers [PyVal.str ("mx.google.com; spf=pass; spf=fail".data)]
      (PyVal.str ("spf".data)) [PyVal.str ("fail".data)] defaultDomain = true ∧
    (parse_header ("mx.google.com; spf=pass; spf=fail".data)).2 =
      [(("spf".data), ("fail".data))] :=
  ⟨by decide, by decide, by decide⟩

/-- Claim C4, amended: within a single header value whose authserv-id
matches the domain, the `key=value` pairs are gathered into an
insertion-ordered dict, so when the target method occurs under an
identical raw key more than once the LAST occurrence's comment-stripped,
lowercased result alone decides the outcome (membership in the accepted
set), regardless of the results of earlier occurrences of the same
method.  Stated for every pair of result tokens `r1`, `r2` free of `;`,
`"` and whitespace: the verdict for `"mx.google.com; spf=r1; spf=r2"`
depends only on `r2`. -/
theorem claim_C4_amended (r1 r2 : List Char) (accepted : List PyVal)
    (h1 : ';' ∉ r1) (h2 : '"' ∉ r1) (h3 : ∀ c ∈ r1, pyIsSpace c = false)
    (h4 : ';' ∉ r2) (h5 : '"' ∉ r2) (h6 : ∀ c ∈ r2, pyIsSpace c = false)
    (ha : acceptedSetOf accepted ≠ []) :
    verify_headers
      [PyVal.str (("mx.google.com; spf=".data) ++ r1 ++ ("; spf=".data) ++ r2)]
      (PyVal.str ("spf".data)) accepted (PyVal.str ("mx.google.com".data)) =
      decide (pyLower (remove_comments r2) ∈ acceptedSetOf accepted) := by
  have hph := parse_header_two_spf r1 r2 h1 h2 h3 h4 h5 h6
  rw [verify_eq_any _ _ _ _ (by simp) (by decide) ha]
  rw [List.any_cons, List.any_nil, Bool.or_false]
  show headerVerifies (pyLower ("spf".data)) (acceptedSetOf accepted)
      (pyLower ("mx.google.com".data))
      (("mx.google.com; spf=".data) ++ r1 ++ ("; spf=".data) ++ r2) = _
  rw [headerVerifies, cleanAid, hph]
  show (List.isSuffixOf (pyLower ("mx.google.com".data))
      (pyLower (remove_comments ("mx.google.com".data))) &&
    ([(("spf".data), r2)]).any (pairOk (pyLower ("spf".data)) (acceptedSetOf accepted))) =
    decide (pyLower (remove_comments r2) ∈ acceptedSetOf accepted)
  rw [show List.isSuffixOf (pyLower ("mx.google.com".data))
      (pyLower (remove_comments ("mx.google.com".data))) = true from by decide,
    Bool.true_and, List.any_cons, List.any_nil, Bool.or_false]
  show (decide (pyLower (remove_comments ("spf".data)) = pyLower ("spf".data)) &&
      decide (pyLower (remove_comments r2) ∈ acceptedSetOf accepted)) =
    decide (pyLower (remove_comments r2) ∈ acceptedSetOf accepted)
  rw [show decide (pyLower (remove_comments ("spf".data)) = pyLower ("spf".data)) = true
      from by decide, Bool.true_and]

/-- Claim C4, witness: the amended statement at `r1 = "pass"`,
`r2 = "fail"`, accepted `{"pass"}`: only the last occurrence counts, so
the call evaluates to the membership test of `"fail"`. -/
theorem claim_C4_amended_witness :
    verify_headers
      [PyVal.str (("mx.google.com; spf=".data) ++ ("pass".data) ++ ("; spf=".data) ++ ("fail".data))]
      (PyVal.str ("spf".data)) defaultAccept (PyVal.str ("mx.google.com".data)) =
      decide (pyLower (remove_comments ("fail".data)) ∈ acceptedSetOf defaultAccept) :=
  claim_C4_amended ("pass".data) ("fail".data) defaultAccept
    (by decide) (by decide) (by decide) (by decide) (by decide) (by decide) (by decide)

end Gaemail
